import Mathlib

/-!
Shallow embedding of the reconciliation engine of
`transaction_reconciliation_api` (`src/app/services.py`), together with
theorems settling the specification claims about it.

Modelling conventions:
* Python `float` amounts and rates are modelled as `ℚ` (exact arithmetic;
  the code's `!=` comparison on amounts is exact equality, which `ℚ`
  models faithfully).
* Python `round(x, 2)` is modelled by `round2` below (round to nearest
  multiple of 1/100); concrete inputs in counterexamples avoid exact
  half-way ties so the tie-breaking rule is irrelevant.
* Python `set(...)` is modelled by `List.toFinset`; `sorted(list(s))` by
  `Finset.sort (· ≤ ·)`.
* Python `sorted(xs, key=..., reverse=True)` is a stable sort; it is
  modelled by `List.insertionSort` with the corresponding relation,
  which is stable with the same tie behaviour.
* Iteration over a Python `set` (`for trans_id in common_ids`) has an
  order that the language does not specify; it is modelled by an explicit
  enumeration parameter `order : List String` constrained by
  `validOrder` to enumerate exactly the common identifiers.
* The SQLAlchemy session is modelled by an explicit `DB` value; each
  service function threads the `DB` through and a `ValueError` is an
  `Except.error`.
-/

/-- Model of Python `round(x, 2)`: round to the nearest multiple of 1/100. -/
def round2 (q : ℚ) : ℚ := ((round (q * 100) : ℤ) : ℚ) / 100

/-- A rational is a 2-decimal-place value when rounding it to 2 places
is the identity. -/
def Is2dp (q : ℚ) : Prop := round2 q = q

/-- The two source systems (`SystemType` in `app/models.py`). -/
inductive SystemType where
  | system_a
  | system_b
deriving DecidableEq, Repr

/-- A stored transaction row (`Transaction` in `app/models.py`), with the
fields the engine reads. -/
structure Transaction where
  id : ℕ
  transaction_id : String
  session_id : ℕ
  system : SystemType
  amount : ℚ
deriving DecidableEq, Repr

/-- A stored reconciliation session row (`ReconciliationSession` in
`app/models.py`), with the fields the engine reads. -/
structure ReconciliationSession where
  id : ℕ
  session_name : String
  system_a_name : String
  system_b_name : String
deriving DecidableEq, Repr

/-- The record store: all session rows and all transaction rows. -/
structure DB where
  sessions : List ReconciliationSession
  transactions : List Transaction
deriving DecidableEq, Repr

/-- Output schema `ReconciliationResult` of `app/schemas.py`. -/
structure ReconciliationResult where
  session_id : ℕ
  session_name : String
  system_a_name : String
  system_b_name : String
  total_system_a : ℕ
  total_system_b : ℕ
  matched_count : ℕ
  matched_transactions : List String
  only_in_system_a_count : ℕ
  only_in_system_a : List String
  only_in_system_b_count : ℕ
  only_in_system_b : List String
  match_rate : ℚ
deriving DecidableEq, Repr

/-- Output schema `AmountDiscrepancyDetail` of `app/schemas.py`. -/
structure AmountDiscrepancyDetail where
  transaction_id : String
  system_a_amount : ℚ
  system_b_amount : ℚ
  difference : ℚ
deriving DecidableEq, Repr

/-- Output schema `AmountDiscrepancyResult` of `app/schemas.py`. -/
structure AmountDiscrepancyResult where
  session_id : ℕ
  session_name : String
  transactions_with_discrepancies : ℕ
  discrepancies : List AmountDiscrepancyDetail
  total_discrepancy_amount : ℚ
deriving DecidableEq, Repr

/-- Output schema `ReconciliationSummary` of `app/schemas.py`. -/
structure ReconciliationSummary where
  session_id : ℕ
  session_name : String
  system_a_name : String
  system_b_name : String
  system_a_count : ℕ
  system_b_count : ℕ
  matched_count : ℕ
  discrepancy_count : ℕ
  match_rate : ℚ
  system_a_total_amount : ℚ
  system_b_total_amount : ℚ
  amount_difference : ℚ
deriving DecidableEq, Repr

/-- Ascending lexicographic listing of a set of identifiers: Python
`sorted(list(s))`. -/
def sortedIds (s : Finset String) : List String := s.sort (· ≤ ·)

/-- Core of `TransactionService.reconcile_transactions`
(`services.py` lines 117-162), acting on the two per-system lists of
transaction identifiers fetched from the store (session metadata passed
through as arguments). -/
def reconcile_core (session_id : ℕ) (session_name system_a_name system_b_name : String)
    (ids_a ids_b : List String) : ReconciliationResult :=
  let system_a_ids : Finset String := ids_a.toFinset
  let system_b_ids : Finset String := ids_b.toFinset
  let matched := system_a_ids ∩ system_b_ids
  let only_in_a := system_a_ids \ system_b_ids
  let only_in_b := system_b_ids \ system_a_ids
  let total_unique := (system_a_ids ∪ system_b_ids).card
  let match_rate : ℚ :=
    if total_unique > 0 then ((matched.card : ℚ) / (total_unique : ℚ)) * 100 else 0
  { session_id := session_id
    session_name := session_name
    system_a_name := system_a_name
    system_b_name := system_b_name
    total_system_a := system_a_ids.card
    total_system_b := system_b_ids.card
    matched_count := matched.card
    matched_transactions := sortedIds matched
    only_in_system_a_count := only_in_a.card
    only_in_system_a := sortedIds only_in_a
    only_in_system_b_count := only_in_b.card
    only_in_system_b := sortedIds only_in_b
    match_rate := round2 match_rate }

/-- An engine-side transaction record: the two fields of a stored row the
discrepancy detector and the summary read. -/
structure TransactionRec where
  transaction_id : String
  amount : ℚ
deriving DecidableEq, Repr

/-- The dictionary comprehension `{t.transaction_id: t.amount for t in ts}`
(`services.py` lines 186-187), as a lookup function: a later record with
the same identifier overwrites an earlier one. -/
def amountMap (ts : List TransactionRec) : String → Option ℚ :=
  ts.foldl
    (fun m t => fun i => if i = t.transaction_id then some t.amount else m i)
    (fun _ => none)

/-- The key set of the dictionary built by `amountMap`: the set of
identifiers occurring in the list. -/
def idsOf (ts : List TransactionRec) : Finset String :=
  (ts.map (fun t => t.transaction_id)).toFinset

/-- One iteration of the `for trans_id in common_ids` loop of
`find_amount_discrepancies` (`services.py` lines 196-210): look the
identifier up in both maps and, when the amounts differ, append a detail
record and accumulate its difference. For identifiers in `common_ids`
both lookups succeed, so the fallthrough branch (Python would raise
`KeyError`) is unreachable under `validOrder`. -/
def discStep (mapA mapB : String → Option ℚ)
    (acc : List AmountDiscrepancyDetail × ℚ) (trans_id : String) :
    List AmountDiscrepancyDetail × ℚ :=
  match mapA trans_id, mapB trans_id with
  | some amount_a, some amount_b =>
      if amount_a ≠ amount_b then
        (acc.1 ++ [{ transaction_id := trans_id
                     system_a_amount := amount_a
                     system_b_amount := amount_b
                     difference := |amount_a - amount_b| }],
         acc.2 + |amount_a - amount_b|)
      else acc
  | _, _ => acc

/-- The relation `sorted(discrepancies, key=lambda x: x.difference,
reverse=True)` sorts by: earlier elements have the larger difference. -/
def diffGE (x y : AmountDiscrepancyDetail) : Prop :=
  y.difference ≤ x.difference

instance : DecidableRel diffGE := fun x y =>
  inferInstanceAs (Decidable (y.difference ≤ x.difference))

instance : IsTotal AmountDiscrepancyDetail diffGE :=
  ⟨fun x y => le_total y.difference x.difference⟩

instance : IsTrans AmountDiscrepancyDetail diffGE :=
  ⟨fun _ _ _ h h' => le_trans h' h⟩

/-- Python's `sorted` is a stable sort; a stable sort by difference
descending is extensionally `List.insertionSort diffGE`. -/
def sortByDiffDesc (l : List AmountDiscrepancyDetail) :
    List AmountDiscrepancyDetail :=
  List.insertionSort diffGE l

/-- The enumeration `order` models the iteration order of the Python set
`common_ids = set(map_a) & set(map_b)`: it lists each common identifier
exactly once, in an order the language leaves unspecified. -/
def validOrder (order : List String) (trans_a trans_b : List TransactionRec) : Prop :=
  order.Nodup ∧ order.toFinset = idsOf trans_a ∩ idsOf trans_b

/-- Core of `TransactionService.find_amount_discrepancies`
(`services.py` lines 174-218), acting on the two per-system record lists
fetched from the store; `order` is the set-iteration order over
`common_ids`. -/
def find_amount_discrepancies_core (session_id : ℕ) (session_name : String)
    (trans_a trans_b : List TransactionRec) (order : List String) :
    AmountDiscrepancyResult :=
  let system_a_amounts := amountMap trans_a
  let system_b_amounts := amountMap trans_b
  let acc := order.foldl (discStep system_a_amounts system_b_amounts) ([], 0)
  { session_id := session_id
    session_name := session_name
    transactions_with_discrepancies := acc.1.length
    discrepancies := sortByDiffDesc acc.1
    total_discrepancy_amount := round2 acc.2 }

/-- Core of `TransactionService.get_reconciliation_summary`
(`services.py` lines 227-288), acting on the two per-system record lists
fetched from the store. `system_a_count`/`system_b_count` are the raw row
counts (`func.count`); the identifier sets are deduplicated; the totals
are raw sums with `or 0.0` giving `0` on empty input, which `List.sum`
already does. -/
def get_reconciliation_summary_core (session_id : ℕ)
    (session_name system_a_name system_b_name : String)
    (trans_a trans_b : List TransactionRec) : ReconciliationSummary :=
  let system_a_count := trans_a.length
  let system_b_count := trans_b.length
  let system_a_ids : Finset String := (trans_a.map (fun t => t.transaction_id)).toFinset
  let system_b_ids : Finset String := (trans_b.map (fun t => t.transaction_id)).toFinset
  let matched := (system_a_ids ∩ system_b_ids).card
  let discrepancy := ((system_a_ids \ system_b_ids) ∪ (system_b_ids \ system_a_ids)).card
  let total_unique := (system_a_ids ∪ system_b_ids).card
  let match_rate : ℚ :=
    if total_unique > 0 then ((matched : ℚ) / (total_unique : ℚ)) * 100 else 0
  let system_a_total : ℚ := (trans_a.map (fun t => t.amount)).sum
  let system_b_total : ℚ := (trans_b.map (fun t => t.amount)).sum
  { session_id := session_id
    session_name := session_name
    system_a_name := system_a_name
    system_b_name := system_b_name
    system_a_count := system_a_count
    system_b_count := system_b_count
    matched_count := matched
    discrepancy_count := discrepancy
    match_rate := round2 match_rate
    system_a_total_amount := round2 system_a_total
    system_b_total_amount := round2 system_b_total
    amount_difference := round2 |system_a_total - system_b_total| }

/-- The query `db.query(ReconciliationSession).filter(id == session_id)
.first()` (`services.py` lines 113, 170, 223). -/
def getSessionById (db : DB) (session_id : ℕ) : Option ReconciliationSession :=
  (db.sessions.filter (fun s => s.id == session_id)).head?

/-- The query for a session's transactions of one system
(`services.py` lines 118-121 and analogues). -/
def transactionsFor (db : DB) (session_id : ℕ) (sys : SystemType) : List Transaction :=
  db.transactions.filter (fun t => t.session_id == session_id && t.system == sys)

/-- Projection of stored rows to the fields the engine cores read. -/
def toRec (t : Transaction) : TransactionRec :=
  { transaction_id := t.transaction_id, amount := t.amount }

/-- `TransactionService.reconcile_transactions` (`services.py` lines
102-162): look the session up, raise `ValueError` if absent, otherwise
run the core on the two identifier lists. The returned `DB` is the store
after the call (the function only reads). -/
def reconcile_transactions (db : DB) (session_id : ℕ) :
    Except String ReconciliationResult × DB :=
  match getSessionById db session_id with
  | none =>
      (.error ("Reconciliation session with id " ++ toString session_id ++ " not found"), db)
  | some session =>
      (.ok (reconcile_core session_id session.session_name
              session.system_a_name session.system_b_name
              ((transactionsFor db session_id .system_a).map (fun t => t.transaction_id))
              ((transactionsFor db session_id .system_b).map (fun t => t.transaction_id))),
       db)

/-- `TransactionService.find_amount_discrepancies` (`services.py` lines
164-218): look the session up, raise `ValueError` if absent, otherwise
run the core on the two record lists; `order` is the set-iteration order
over the common identifiers. The returned `DB` is the store after the
call. -/
def find_amount_discrepancies (db : DB) (session_id : ℕ) (order : List String) :
    Except String AmountDiscrepancyResult × DB :=
  match getSessionById db session_id with
  | none =>
      (.error ("Reconciliation session with id " ++ toString session_id ++ " not found"), db)
  | some session =>
      (.ok (find_amount_discrepancies_core session_id session.session_name
              ((transactionsFor db session_id .system_a).map toRec)
              ((transactionsFor db session_id .system_b).map toRec)
              order),
       db)

/-- `TransactionService.get_reconciliation_summary` (`services.py` lines
220-288): look the session up, raise `ValueError` if absent, otherwise
run the core on the two record lists. The returned `DB` is the store
after the call. -/
def get_reconciliation_summary (db : DB) (session_id : ℕ) :
    Except String ReconciliationSummary × DB :=
  match getSessionById db session_id with
  | none =>
      (.error ("Reconciliation session with id " ++ toString session_id ++ " not found"), db)
  | some session =>
      (.ok (get_reconciliation_summary_core session_id session.session_name
              session.system_a_name session.system_b_name
              ((transactionsFor db session_id .system_a).map toRec)
              ((transactionsFor db session_id .system_b).map toRec)),
       db)

/-- Test for `Except.ok`, used to state when a service call succeeds. -/
def exceptOk {ε α : Type} : Except ε α → Bool
  | .ok _ => true
  | .error _ => false

/-! ### Shared lemmas -/

theorem round2_zero : round2 0 = 0 := by
  simp [round2]

theorem round2_round2 (q : ℚ) : round2 (round2 q) = round2 q := by
  unfold round2
  rw [div_mul_cancel₀ _ (by norm_num : (100 : ℚ) ≠ 0), round_intCast]

theorem sortedIds_toFinset (s : Finset String) : (sortedIds s).toFinset = s :=
  Finset.sort_toFinset _ s

/-! ### Claim C1 -/

/-- C1: for every pair of input identifier collections,
`reconcile_transactions` produces the three sets `matched = A ∩ B`,
`only_in_a = A − B`, `only_in_b = B − A` over the deduplicated input
identifier sets `A` and `B`; they are pairwise disjoint and their union
is `A ∪ B`. -/
theorem reconcile_core_matchSet_partition
    (sid : ℕ) (sn sa sb : String) (ids_a ids_b : List String) :
    (reconcile_core sid sn sa sb ids_a ids_b).matched_transactions.toFinset
        = ids_a.toFinset ∩ ids_b.toFinset ∧
    (reconcile_core sid sn sa sb ids_a ids_b).only_in_system_a.toFinset
        = ids_a.toFinset \ ids_b.toFinset ∧
    (reconcile_core sid sn sa sb ids_a ids_b).only_in_system_b.toFinset
        = ids_b.toFinset \ ids_a.toFinset ∧
    (reconcile_core sid sn sa sb ids_a ids_b).matched_transactions.toFinset
        ∩ (reconcile_core sid sn sa sb ids_a ids_b).only_in_system_a.toFinset = ∅ ∧
    (reconcile_core sid sn sa sb ids_a ids_b).matched_transactions.toFinset
        ∩ (reconcile_core sid sn sa sb ids_a ids_b).only_in_system_b.toFinset = ∅ ∧
    (reconcile_core sid sn sa sb ids_a ids_b).only_in_system_a.toFinset
        ∩ (reconcile_core sid sn sa sb ids_a ids_b).only_in_system_b.toFinset = ∅ ∧
    (reconcile_core sid sn sa sb ids_a ids_b).matched_transactions.toFinset
        ∪ (reconcile_core sid sn sa sb ids_a ids_b).only_in_system_a.toFinset
        ∪ (reconcile_core sid sn sa sb ids_a ids_b).only_in_system_b.toFinset
        = ids_a.toFinset ∪ ids_b.toFinset := by
  simp only [reconcile_core, sortedIds_toFinset]
  refine ⟨trivial, trivial, trivial, ?_, ?_, ?_, ?_⟩ <;>
    · ext x
      simp only [Finset.mem_inter, Finset.mem_sdiff, Finset.mem_union,
        Finset.not_mem_empty, iff_false, not_and]
      tauto

/-! ### Claim C2 -/

/-- C2: the match rate of `reconcile_transactions` is `0` when the union
of the deduplicated identifier sets is empty and otherwise
`round(100 * |matched| / |union|, 2)`; empty inputs yield empty sets and
a zero match rate. -/
theorem reconcile_core_match_rate
    (sid : ℕ) (sn sa sb : String) (ids_a ids_b : List String) :
    ((reconcile_core sid sn sa sb ids_a ids_b).match_rate =
      if ids_a.toFinset ∪ ids_b.toFinset = ∅ then 0
      else round2 (100 * ((ids_a.toFinset ∩ ids_b.toFinset).card : ℚ)
                     / (((ids_a.toFinset ∪ ids_b.toFinset).card : ℕ) : ℚ))) ∧
    (reconcile_core sid sn sa sb [] []).matched_transactions = [] ∧
    (reconcile_core sid sn sa sb [] []).only_in_system_a = [] ∧
    (reconcile_core sid sn sa sb [] []).only_in_system_b = [] ∧
    (reconcile_core sid sn sa sb [] []).match_rate = 0 := by
  refine ⟨?_, by simp [reconcile_core, sortedIds], by simp [reconcile_core, sortedIds],
    by simp [reconcile_core, sortedIds], by simp [reconcile_core, round2_zero]⟩
  by_cases h : ids_a.toFinset ∪ ids_b.toFinset = ∅
  · simp [reconcile_core, h, round2_zero]
  · have hpos : 0 < (ids_a.toFinset ∪ ids_b.toFinset).card :=
      Finset.card_pos.mpr (Finset.nonempty_iff_ne_empty.mpr h)
    simp only [reconcile_core, if_neg h, if_pos hpos]
    congr 1
    ring

/-! ### Claim C9 -/

/-- C9: reconciliation is symmetric under swapping the two systems: the
match rate is unchanged, the only-in-A output on `(A, B)` equals the
only-in-B output on `(B, A)`, and the match rate on empty inputs is 0. -/
theorem reconcile_core_symmetric
    (sid : ℕ) (sn sa sb : String) (ids_a ids_b : List String) :
    (reconcile_core sid sn sa sb ids_a ids_b).match_rate
        = (reconcile_core sid sn sa sb ids_b ids_a).match_rate ∧
    (reconcile_core sid sn sa sb ids_a ids_b).only_in_system_a
        = (reconcile_core sid sn sa sb ids_b ids_a).only_in_system_b ∧
    (reconcile_core sid sn sa sb [] []).match_rate = 0 := by
  have h1 : ids_a.toFinset ∩ ids_b.toFinset = ids_b.toFinset ∩ ids_a.toFinset :=
    Finset.inter_comm _ _
  have h2 : ids_a.toFinset ∪ ids_b.toFinset = ids_b.toFinset ∪ ids_a.toFinset :=
    Finset.union_comm _ _
  refine ⟨?_, ?_, by simp [reconcile_core, round2_zero]⟩
  · simp only [reconcile_core, h1, h2]
  · simp only [reconcile_core, sortedIds]

/-! ### Claim C10 -/

/-- C10: each of the three service operations raises `ValueError` exactly
when no session with the given id exists, returns a result otherwise, and
never modifies the record store. -/
theorem services_error_iff_session_missing (db : DB) (session_id : ℕ) (order : List String) :
    exceptOk (reconcile_transactions db session_id).1 = (getSessionById db session_id).isSome ∧
    exceptOk (find_amount_discrepancies db session_id order).1
        = (getSessionById db session_id).isSome ∧
    exceptOk (get_reconciliation_summary db session_id).1
        = (getSessionById db session_id).isSome ∧
    (reconcile_transactions db session_id).2 = db ∧
    (find_amount_discrepancies db session_id order).2 = db ∧
    (get_reconciliation_summary db session_id).2 = db := by
  cases h : getSessionById db session_id <;>
    simp [reconcile_transactions, find_amount_discrepancies,
      get_reconciliation_summary, h, exceptOk]

/-! ### Claim C8 -/

/-- C8: on the same two record collections, the match rate computed by
`get_reconciliation_summary` equals the match rate computed by
`reconcile_transactions` on the corresponding identifier lists. -/
theorem summary_match_rate_eq_reconcile
    (sid : ℕ) (sn sa sb : String) (trans_a trans_b : List TransactionRec) :
    (get_reconciliation_summary_core sid sn sa sb trans_a trans_b).match_rate
      = (reconcile_core sid sn sa sb
          (trans_a.map (fun t => t.transaction_id))
          (trans_b.map (fun t => t.transaction_id))).match_rate := rfl

/-! ### Claim C7 -/

/-- C7: in the summary, the per-system counts are the raw record counts
(not deduplicated), while `discrepancy_count` is `|(A−B) ∪ (B−A)|` over
the deduplicated identifier sets, i.e. the number of identifiers present
in exactly one system. -/
theorem summary_counts_raw_and_discrepancy_unmatched
    (sid : ℕ) (sn sa sb : String) (trans_a trans_b : List TransactionRec) :
    (get_reconciliation_summary_core sid sn sa sb trans_a trans_b).system_a_count
        = trans_a.length ∧
    (get_reconciliation_summary_core sid sn sa sb trans_a trans_b).system_b_count
        = trans_b.length ∧
    (get_reconciliation_summary_core sid sn sa sb trans_a trans_b).discrepancy_count
        = ((idsOf trans_a \ idsOf trans_b) ∪ (idsOf trans_b \ idsOf trans_a)).card ∧
    (get_reconciliation_summary_core sid sn sa sb trans_a trans_b).discrepancy_count
        = ((idsOf trans_a ∪ idsOf trans_b) \ (idsOf trans_a ∩ idsOf trans_b)).card := by
  refine ⟨rfl, rfl, rfl, ?_⟩
  have h : (idsOf trans_a \ idsOf trans_b) ∪ (idsOf trans_b \ idsOf trans_a)
      = (idsOf trans_a ∪ idsOf trans_b) \ (idsOf trans_a ∩ idsOf trans_b) := by
    ext x
    simp only [Finset.mem_union, Finset.mem_sdiff, Finset.mem_inter, not_and]
    tauto
  show ((idsOf trans_a \ idsOf trans_b) ∪ (idsOf trans_b \ idsOf trans_a)).card = _
  rw [h]

/-! ### Discrepancy-detector lemmas -/

theorem amountMap_last (ts : List TransactionRec) (i : String) :
    amountMap ts i
      = (ts.reverse.find? (fun t => t.transaction_id == i)).map (fun t => t.amount) := by
  induction ts using List.reverseRecOn with
  | nil => rfl
  | append_singleton ts t ih =>
    have hfold : amountMap (ts ++ [t]) i
        = if i = t.transaction_id then some t.amount else amountMap ts i := by
      simp only [amountMap, List.foldl_append, List.foldl_cons, List.foldl_nil]
    rw [hfold, List.reverse_append, List.reverse_singleton, List.singleton_append]
    by_cases h : t.transaction_id = i
    · rw [if_pos h.symm, List.find?_cons_of_pos _ (by simp [h])]
      rfl
    · rw [if_neg (fun hh => h hh.symm), List.find?_cons_of_neg _ (by simp [h]), ih]

theorem amountMap_eq_some_iff_mem (ts : List TransactionRec) (i : String) :
    (∃ q, amountMap ts i = some q) ↔ i ∈ idsOf ts := by
  rw [amountMap_last]
  cases hf : ts.reverse.find? (fun t => t.transaction_id == i) with
  | none =>
    rw [List.find?_eq_none] at hf
    constructor
    · rintro ⟨q, hq⟩
      simp at hq
    · intro hmem
      obtain ⟨t, ht, hti⟩ := by
        simpa only [idsOf, List.mem_toFinset, List.mem_map] using hmem
      exact absurd (by simp [hti]) (hf t (List.mem_reverse.mpr ht))
  | some t =>
    have hmem : t ∈ ts := List.mem_reverse.mp (List.mem_of_find?_eq_some hf)
    have hti : t.transaction_id = i := by
      simpa using List.find?_some hf
    constructor
    · intro _
      exact List.mem_toFinset.mpr (List.mem_map.mpr ⟨t, hmem, hti⟩)
    · intro _
      exact ⟨t.amount, rfl⟩

theorem mem_discStep (mA mB : String → Option ℚ)
    (acc : List AmountDiscrepancyDetail × ℚ) (x : String) (d : AmountDiscrepancyDetail) :
    d ∈ (discStep mA mB acc x).1 ↔
      d ∈ acc.1 ∨
      (d.transaction_id = x ∧ mA x = some d.system_a_amount ∧
       mB x = some d.system_b_amount ∧ d.system_a_amount ≠ d.system_b_amount ∧
       d.difference = |d.system_a_amount - d.system_b_amount|) := by
  obtain ⟨di, da, db', dd⟩ := d
  unfold discStep
  cases hA : mA x with
  | none => simp [hA]
  | some a =>
    cases hB : mB x with
    | none => simp [hA, hB]
    | some b =>
      dsimp only
      by_cases hab : a = b
      · rw [if_neg (not_not_intro hab)]
        constructor
        · exact Or.inl
        · rintro (h | ⟨_, h2, h3, h4, _⟩)
          · exact h
          · injection h2 with h2
            injection h3 with h3
            exact absurd ((h2.symm.trans hab).trans h3) h4
      · rw [if_pos hab]
        simp only [List.mem_append, List.mem_singleton, AmountDiscrepancyDetail.mk.injEq]
        constructor
        · rintro (h | ⟨h1, h2, h3, h4⟩)
          · exact Or.inl h
          · refine Or.inr ⟨h1, ?_, ?_, ?_, ?_⟩
            · rw [h2]
            · rw [h3]
            · rw [h2, h3]
              exact hab
            · rw [h2, h3, h4]
        · rintro (h | ⟨h1, h2, h3, h4, h5⟩)
          · exact Or.inl h
          · injection h2 with h2
            injection h3 with h3
            refine Or.inr ⟨h1, h2.symm, h3.symm, ?_⟩
            rw [h2, h3]
            exact h5

theorem mem_foldl_discStep (mA mB : String → Option ℚ) (order : List String) :
    ∀ (acc : List AmountDiscrepancyDetail × ℚ) (d : AmountDiscrepancyDetail),
    d ∈ (order.foldl (discStep mA mB) acc).1 ↔
      d ∈ acc.1 ∨
      (d.transaction_id ∈ order ∧ mA d.transaction_id = some d.system_a_amount ∧
       mB d.transaction_id = some d.system_b_amount ∧
       d.system_a_amount ≠ d.system_b_amount ∧
       d.difference = |d.system_a_amount - d.system_b_amount|) := by
  induction order with
  | nil => simp
  | cons x xs ih =>
    intro acc d
    rw [List.foldl_cons, ih, mem_discStep]
    constructor
    · rintro ((h | ⟨h1, h2, h3, h4, h5⟩) | ⟨h1, h2, h3, h4, h5⟩)
      · exact Or.inl h
      · exact Or.inr ⟨h1 ▸ List.mem_cons_self x xs, h1 ▸ h2, h1 ▸ h3, h4, h5⟩
      · exact Or.inr ⟨List.mem_cons_of_mem x h1, h2, h3, h4, h5⟩
    · rintro (h | ⟨h1, h2, h3, h4, h5⟩)
      · exact Or.inl (Or.inl h)
      · rcases List.mem_cons.mp h1 with h1 | h1
        · exact Or.inl (Or.inr ⟨h1, h1 ▸ h2, h1 ▸ h3, h4, h5⟩)
        · exact Or.inr ⟨h1, h2, h3, h4, h5⟩

theorem discStep_total_invariant (mA mB : String → Option ℚ)
    (acc : List AmountDiscrepancyDetail × ℚ) (x : String)
    (h : acc.2 = (acc.1.map (fun d => d.difference)).sum) :
    (discStep mA mB acc x).2
      = ((discStep mA mB acc x).1.map (fun d => d.difference)).sum := by
  unfold discStep
  cases hA : mA x with
  | none => exact h
  | some a =>
    cases hB : mB x with
    | none => exact h
    | some b =>
      by_cases hab : a ≠ b
      · simp [if_pos hab, h]
      · simpa [hab] using h

theorem foldl_discStep_total (mA mB : String → Option ℚ) (order : List String) :
    ∀ (acc : List AmountDiscrepancyDetail × ℚ),
    acc.2 = (acc.1.map (fun d => d.difference)).sum →
    (order.foldl (discStep mA mB) acc).2
      = ((order.foldl (discStep mA mB) acc).1.map (fun d => d.difference)).sum := by
  induction order with
  | nil => exact fun acc h => h
  | cons x xs ih =>
    intro acc h
    rw [List.foldl_cons]
    exact ih _ (discStep_total_invariant mA mB acc x h)

/-! ### Claim C5 -/

/-- C5: a `DiscrepancyRecord` is in the output of
`find_amount_discrepancies` exactly when its identifier is in both
systems' identifier-to-amount maps with the stated amounts, the amounts
differ, and its difference is `|amount_a − amount_b|`; and each map
returns the amount of the LAST record with a given identifier (a later
duplicate silently overwrites earlier ones). -/
theorem find_core_discrepancy_membership
    (sid : ℕ) (sn : String) (trans_a trans_b : List TransactionRec) (order : List String)
    (h : validOrder order trans_a trans_b) :
    (∀ d : AmountDiscrepancyDetail,
      d ∈ (find_amount_discrepancies_core sid sn trans_a trans_b order).discrepancies ↔
        (amountMap trans_a d.transaction_id = some d.system_a_amount ∧
         amountMap trans_b d.transaction_id = some d.system_b_amount ∧
         d.system_a_amount ≠ d.system_b_amount ∧
         d.difference = |d.system_a_amount - d.system_b_amount|)) ∧
    (∀ (ts : List TransactionRec) (i : String),
      amountMap ts i
        = (ts.reverse.find? (fun t => t.transaction_id == i)).map (fun t => t.amount)) := by
  obtain ⟨hnd, hset⟩ := h
  refine ⟨fun d => ?_, amountMap_last⟩
  unfold find_amount_discrepancies_core sortByDiffDesc
  dsimp only
  rw [(List.perm_insertionSort diffGE _).mem_iff, mem_foldl_discStep]
  simp only [List.not_mem_nil, false_or]
  constructor
  · rintro ⟨_, h1, h2, h3, h4⟩
    exact ⟨h1, h2, h3, h4⟩
  · rintro ⟨h1, h2, h3, h4⟩
    refine ⟨?_, h1, h2, h3, h4⟩
    have ha : d.transaction_id ∈ idsOf trans_a :=
      (amountMap_eq_some_iff_mem _ _).mp ⟨_, h1⟩
    have hb : d.transaction_id ∈ idsOf trans_b :=
      (amountMap_eq_some_iff_mem _ _).mp ⟨_, h2⟩
    have hmem : d.transaction_id ∈ order.toFinset := by
      rw [hset]
      exact Finset.mem_inter.mpr ⟨ha, hb⟩
    exact List.mem_toFinset.mp hmem

/-- Witness for C5 at a concrete input: one common identifier with
amounts 1 and 2 produces the detail record with difference 1. -/
theorem find_core_discrepancy_membership_witness :
    ({ transaction_id := "t1", system_a_amount := 1, system_b_amount := 2,
       difference := 1 } : AmountDiscrepancyDetail)
      ∈ (find_amount_discrepancies_core 1 "s"
          [{ transaction_id := "t1", amount := 1 }]
          [{ transaction_id := "t1", amount := 2 }] ["t1"]).discrepancies :=
  ((find_core_discrepancy_membership 1 "s"
      [{ transaction_id := "t1", amount := 1 }]
      [{ transaction_id := "t1", amount := 2 }] ["t1"]
      ⟨by decide, by decide⟩).1 _).mpr
    ⟨by decide, by decide, by norm_num, by norm_num⟩

/-! ### Claim C6 -/

/-- C6 (amended): the `total_discrepancy_amount` returned by
`find_amount_discrepancies` equals the SUM OF THE DIFFERENCES of the
returned records ROUNDED to 2 decimal places (the list holds unrounded
differences, the total is rounded once at the end). -/
theorem find_core_total_eq_round2_sum
    (sid : ℕ) (sn : String) (trans_a trans_b : List TransactionRec) (order : List String) :
    (find_amount_discrepancies_core sid sn trans_a trans_b order).total_discrepancy_amount
      = round2 (((find_amount_discrepancies_core sid sn trans_a trans_b order).discrepancies.map
          (fun d => d.difference)).sum) := by
  unfold find_amount_discrepancies_core sortByDiffDesc
  dsimp only
  congr 1
  rw [foldl_discStep_total _ _ _ _ (by simp)]
  exact (((List.perm_insertionSort diffGE _).map (fun d => d.difference)).sum_eq).symm

/-- Counterexample to C6 as stated: with a single common identifier whose
amounts differ by 1/1000, the returned list sums to 1/1000 but the
returned total is the rounded value 0. -/
theorem find_core_total_ne_sum_counterexample :
    validOrder ["t1"] [{ transaction_id := "t1", amount := 1/1000 }]
        [{ transaction_id := "t1", amount := 0 }] ∧
    ((find_amount_discrepancies_core 1 "s" [{ transaction_id := "t1", amount := 1/1000 }]
        [{ transaction_id := "t1", amount := 0 }] ["t1"]).discrepancies.map
          (fun d => d.difference)).sum = 1/1000 ∧
    (find_amount_discrepancies_core 1 "s" [{ transaction_id := "t1", amount := 1/1000 }]
        [{ transaction_id := "t1", amount := 0 }] ["t1"]).total_discrepancy_amount = 0 ∧
    (1/1000 : ℚ) ≠ 0 := by
  refine ⟨⟨by decide, by decide⟩, ?_, ?_, by norm_num⟩
  · norm_num [find_amount_discrepancies_core, discStep, amountMap, sortByDiffDesc,
      List.insertionSort, List.orderedInsert]
  · norm_num [find_amount_discrepancies_core, discStep, amountMap, round2, round_eq,
      abs_of_nonneg]

/-! ### Claim C4 -/

/-- C4 (amended): the list returned by `find_amount_discrepancies` is
sorted by difference in descending order; the relative order of records
with EQUAL differences is NOT determined by their identifiers (the stable
sort preserves the unspecified set-iteration order). -/
theorem find_core_sorted_by_difference_desc
    (sid : ℕ) (sn : String) (trans_a trans_b : List TransactionRec) (order : List String) :
    ((find_amount_discrepancies_core sid sn trans_a trans_b order).discrepancies).Sorted diffGE :=
  List.sorted_insertionSort diffGE _

/-- Counterexample to C4 as stated: two discrepancies with equal
difference 1 whose identifiers come out in DESCENDING order `["b", "a"]`
when the common identifiers are enumerated as `["b", "a"]` — the code
applies no identifier tie-break. -/
theorem find_core_tie_break_counterexample :
    validOrder ["b", "a"]
        [{ transaction_id := "a", amount := 1 }, { transaction_id := "b", amount := 5 }]
        [{ transaction_id := "a", amount := 2 }, { transaction_id := "b", amount := 6 }] ∧
    ((find_amount_discrepancies_core 1 "s"
        [{ transaction_id := "a", amount := 1 }, { transaction_id := "b", amount := 5 }]
        [{ transaction_id := "a", amount := 2 }, { transaction_id := "b", amount := 6 }]
        ["b", "a"]).discrepancies.map (fun d => d.difference)) = [1, 1] ∧
    ((find_amount_discrepancies_core 1 "s"
        [{ transaction_id := "a", amount := 1 }, { transaction_id := "b", amount := 5 }]
        [{ transaction_id := "a", amount := 2 }, { transaction_id := "b", amount := 6 }]
        ["b", "a"]).discrepancies.map (fun d => d.transaction_id)) = ["b", "a"] ∧
    ("a" : String) < "b" := by
  refine ⟨⟨by decide, by decide⟩, ?_, ?_, String.lt_iff_toList_lt.mpr (by decide)⟩
  · norm_num [find_amount_discrepancies_core, discStep, amountMap, sortByDiffDesc,
      List.insertionSort, List.orderedInsert, diffGE]
  · norm_num [find_amount_discrepancies_core, discStep, amountMap, sortByDiffDesc,
      List.insertionSort, List.orderedInsert, diffGE]

/-! ### Claim C3 -/

/-- C3 (amended): the match rates, the total discrepancy amount, and the
summary's monetary fields are rounded to 2 decimal places, but each
individual `DiscrepancyRecord`'s `difference` (and its per-system
amounts) is returned UNROUNDED. -/
theorem monetary_outputs_rounded
    (sid : ℕ) (sn sa sb : String) (ids_a ids_b : List String)
    (trans_a trans_b : List TransactionRec) (order : List String) :
    Is2dp (reconcile_core sid sn sa sb ids_a ids_b).match_rate ∧
    Is2dp (find_amount_discrepancies_core sid sn trans_a trans_b order).total_discrepancy_amount ∧
    Is2dp (get_reconciliation_summary_core sid sn sa sb trans_a trans_b).match_rate ∧
    Is2dp (get_reconciliation_summary_core sid sn sa sb trans_a trans_b).system_a_total_amount ∧
    Is2dp (get_reconciliation_summary_core sid sn sa sb trans_a trans_b).system_b_total_amount ∧
    Is2dp (get_reconciliation_summary_core sid sn sa sb trans_a trans_b).amount_difference :=
  ⟨round2_round2 _, round2_round2 _, round2_round2 _, round2_round2 _,
   round2_round2 _, round2_round2 _⟩

/-- Counterexample to C3 as stated: a discrepancy of 1/1000 appears in
the returned list as exactly 1/1000, which is not a 2-decimal-place
value. -/
theorem discrepancy_difference_unrounded_counterexample :
    validOrder ["t1"] [{ transaction_id := "t1", amount := 1/1000 }]
        [{ transaction_id := "t1", amount := 0 }] ∧
    ((find_amount_discrepancies_core 7 "s" [{ transaction_id := "t1", amount := 1/1000 }]
        [{ transaction_id := "t1", amount := 0 }] ["t1"]).discrepancies.map
          (fun d => d.difference)) = [1/1000] ∧
    ¬ Is2dp (1/1000 : ℚ) := by
  refine ⟨⟨by decide, by decide⟩, ?_, ?_⟩
  · norm_num [find_amount_discrepancies_core, discStep, amountMap, sortByDiffDesc,
      List.insertionSort, List.orderedInsert]
  · intro h
    have hr : round2 (1/1000 : ℚ) = 0 := by
      norm_num [round2, round_eq]
    rw [Is2dp, hr] at h
    exact absurd h.symm (by norm_num)

